import Mathlib

/-!
Verification development for the MJIT coordination core (`mjit.c`): the
submission queue, the active-unit cache with eviction, the continuation
registry, the GC rendezvous flags, option normalization, the synchronous
wait loop, and the class-serial set.

The C module is embedded shallowly: machine `int` fields are `Int`,
counters are `Nat`, the intrusive doubly-linked unit lists are Lean lists
of their (live) elements, and the per-iseq `rb_iseq_constant_body` fields
used by this module (`jit_func`, `jit_unit`, `total_calls`) live in a map
from iseq ids to bodies.  Host-interpreter details (frame layout,
`imemo` discrimination, GVL) are abstracted: an execution context is the
list of iseq ids appearing on its control-frame stack.  Concurrency is
modelled single-threadedly: the only coordinator function whose result
depends on the worker thread, `mjit_gc_start_hook`, returns `none` when
it would block waiting for the worker.
-/

/-- The `jit_func` cell of an iseq body: three sentinels plus a compiled
native entry pointer (`fn addr`). -/
inductive JitFunc where
  | not_added
  | not_ready
  | not_compiled
  | fn (addr : Nat)
deriving DecidableEq, Repr, Inhabited

/-- `struct rb_mjit_unit`: one JIT compilation attempt for one iseq.
`iseq` is the weak backref (`none` once the iseq is GCed), `used_code_p`
is the transient liveness flag set by `unload_units`' mark phase,
`handle` abstracts the loaded-artifact handle (`true` = non-null). -/
structure rb_mjit_unit where
  id : Nat
  iseq : Option Nat
  used_code_p : Bool
  handle : Bool
deriving DecidableEq, Repr, Inhabited

/-- The fields of `struct rb_iseq_constant_body` read or written by
`mjit.c`. -/
structure rb_iseq_constant_body where
  jit_func : JitFunc
  jit_unit : Option Nat
  total_calls : Nat
deriving DecidableEq, Repr, Inhabited

/-- `struct mjit_options` (the fields `mjit.c` uses).  `min_calls` and
`max_cache_size` are C `int`s, hence `Int`; `verbose` is the C `int`
verbosity level. -/
structure mjit_options where
  min_calls : Int
  max_cache_size : Int
  warnings : Bool
  verbose : Int
  save_temps : Bool
deriving DecidableEq, Repr, Inhabited

/-- The coordinator's global mutable state: the enable flags, the copied
options, PCH failure flag, the unit-id counter, the per-iseq bodies, the
three unit lists, the continuation registry (each continuation is the
stack of iseq ids of its execution context), the GC-rendezvous flags,
and the valid-class-serial set. -/
structure MState where
  mjit_enabled : Bool
  mjit_call_p : Bool
  pch_failed : Bool
  mjit_opts : mjit_options
  mjit_current_unit_num : Nat
  bodies : Nat → rb_iseq_constant_body
  mjit_unit_queue : List rb_mjit_unit
  mjit_active_units : List rb_mjit_unit
  mjit_compact_units : List rb_mjit_unit
  first_cont : List (List Nat)
  mjit_in_gc : Bool
  mjit_in_jit : Bool
  valid_class_serials : List Int

/- ------------------------------------------------------------------
Eviction primitives of `unload_units` (mjit.c:306-362).
------------------------------------------------------------------- -/

/-- The victim-search loop body of `unload_units` (mjit.c:343-351): scan
the active list left to right keeping `worst` (position and unit);
used units are skipped, and the current worst is replaced exactly when
its call counter is strictly greater than the candidate's.  `calls u`
stands for the C read `u->iseq->body->total_calls`. -/
def findWorstAux (calls : rb_mjit_unit → Nat) :
    List rb_mjit_unit → Nat → Option (Nat × rb_mjit_unit) → Option (Nat × rb_mjit_unit)
  | [], _, worst => worst
  | u :: rest, pos, worst =>
    if u.used_code_p then
      findWorstAux calls rest (pos + 1) worst
    else
      match worst with
      | none => findWorstAux calls rest (pos + 1) (some (pos, u))
      | some (wi, w) =>
        if calls w > calls u then
          findWorstAux calls rest (pos + 1) (some (pos, u))
        else
          findWorstAux calls rest (pos + 1) (some (wi, w))

/-- Position of the victim `worst_node` chosen by one iteration of the
eviction loop, if any. -/
def pickWorst (calls : rb_mjit_unit → Nat) (us : List rb_mjit_unit) : Option Nat :=
  (findWorstAux calls us 0 none).map Prod.fst

/-- Specification-side recursion: the first position realizing the
minimum call count among units whose `used_code_p` is false, together
with that unit. -/
def unusedMin (calls : rb_mjit_unit → Nat) : List rb_mjit_unit → Option (Nat × rb_mjit_unit)
  | [] => none
  | u :: rest =>
    if u.used_code_p then
      (unusedMin calls rest).map (fun p => (p.1 + 1, p.2))
    else
      match unusedMin calls rest with
      | none => some (0, u)
      | some (j, w) => if calls u ≤ calls w then some (0, u) else some (j + 1, w)

/-- How the scan's accumulator combines with the first-position minimum
of the rest of the list: the accumulator survives unless a strictly
smaller call count was found.  Specification-side helper for reasoning
about `findWorstAux`. -/
def mergeWorst (calls : rb_mjit_unit → Nat) (pos : Nat)
    (m worst : Option (Nat × rb_mjit_unit)) : Option (Nat × rb_mjit_unit) :=
  match m, worst with
  | none, w => w
  | some (j, u), none => some (pos + j, u)
  | some (j, u), some (wi, w) =>
    if calls w > calls u then some (pos + j, u) else some (wi, w)

/-- `i` is the position of the unit with the smallest `total_calls` among
the units of `us` whose `used_code_p` flag is false, ties broken by the
first-encountered position in list order. -/
def isFirstMinUnused (calls : rb_mjit_unit → Nat) (us : List rb_mjit_unit) (i : Nat) : Prop :=
  i < us.length ∧ (us.getD i default).used_code_p = false ∧
  (∀ k, k < us.length → (us.getD k default).used_code_p = false →
    calls (us.getD i default) ≤ calls (us.getD k default)) ∧
  (∀ k, k < i → (us.getD k default).used_code_p = false →
    calls (us.getD i default) < calls (us.getD k default))

instance (calls : rb_mjit_unit → Nat) (us : List rb_mjit_unit) (i : Nat) :
    Decidable (isFirstMinUnused calls us i) := by
  unfold isFirstMinUnused; infer_instance

set_option linter.unusedVariables false in
/-- The eviction loop of `unload_units` (mjit.c:341-360): while the list
is longer than `target` (`max_cache_size - delete_num`, a C `int`
difference, hence `Int`), pick the worst node and unlink it; stop when
no evictable node exists.  The inner bound check is a bounds assertion
only used for termination: `pickWorst` always returns a position inside
the list. -/
def evictLoop (calls : rb_mjit_unit → Nat) (target : Int) (us : List rb_mjit_unit) :
    List rb_mjit_unit :=
  if (us.length : Int) > target then
    match pickWorst calls us with
    | none => us
    | some i =>
      if h : i < us.length then
        evictLoop calls target (us.eraseIdx i)
      else us
  else us
termination_by us.length
decreasing_by
  rw [List.length_eraseIdx]
  simp only [h, if_true]
  omega

example : pickWorst (fun u => u.id)
    [⟨5, some 0, true, true⟩, ⟨7, some 1, false, true⟩, ⟨3, some 2, false, true⟩] = some 2 := by
  decide

/- ------------------------------------------------------------------
`unload_units` (mjit.c:306-362) and its phases.
------------------------------------------------------------------- -/

/-- First sweep of `unload_units` (mjit.c:317-323): units whose iseq
backref was nulled by GC are freed and unlinked unconditionally. -/
def sweepActive (l : List rb_mjit_unit) : List rb_mjit_unit :=
  l.filter (fun u => u.iseq.isSome)

/-- mjit.c:326-329: clear `used_code_p` on every remaining active
unit. -/
def clearUsed (l : List rb_mjit_unit) : List rb_mjit_unit :=
  l.map (fun u => { u with used_code_p := false })

/-- The iseq ids the mark phase walks: every frame iseq of every living
host thread's stack (`threadStacks`) and of every registered
continuation's stack (`s.first_cont`), per the `mark_ec_units` calls at
mjit.c:330-335. -/
def stackIseqIds (threadStacks : List (List Nat)) (s : MState) : List Nat :=
  (threadStacks ++ s.first_cont).flatten

/-- The effect of the `mark_ec_units` walks (mjit.c:282-302): for every
frame iseq `j` on a scanned stack, the write
`iseq->body->jit_unit->used_code_p = TRUE` (mjit.c:299) sets the flag
of the unit the iseq body's `jit_unit` pointer currently names — not of
a unit merely whose backref is `j`.  On the list, the unit with that id
gets its flag set. -/
def markUsed (bodies : Nat → rb_iseq_constant_body) (stackIseqs : List Nat)
    (l : List rb_mjit_unit) : List rb_mjit_unit :=
  l.map (fun u =>
    if stackIseqs.any (fun j => (bodies j).jit_unit == some u.id) then
      { u with used_code_p := true }
    else u)

/-- Sweep, clear, mark: the state of the active list when the eviction
loop of `unload_units` starts. -/
def markActive (bodies : Nat → rb_iseq_constant_body) (stackIseqs : List Nat)
    (l : List rb_mjit_unit) : List rb_mjit_unit :=
  markUsed bodies stackIseqs (clearUsed (sweepActive l))

/-- The read `node->unit->iseq->body->total_calls` (mjit.c:348); after
the sweep every unit in the loop has a live iseq, so the `getD 0`
default is never reached. -/
def callsOf (s : MState) (u : rb_mjit_unit) : Nat :=
  (s.bodies (u.iseq.getD 0)).total_calls

/-- `unload_units` (mjit.c:306-362): sweep GCed units, clear
`used_code_p` and re-mark it through the `jit_unit` pointers of the
stack iseqs, then evict worst-first down to
`max_cache_size - delete_num` where `delete_num` is a tenth of the
post-sweep length, captured once before the loop. -/
def unload_units (threadStacks : List (List Nat)) (s : MState) : MState :=
  let marked := markActive s.bodies (stackIseqIds threadStacks s) s.mjit_active_units
  let delete_num : Int := (marked.length : Int) / 10
  { s with mjit_active_units :=
      evictLoop (callsOf s) (s.mjit_opts.max_cache_size - delete_num) marked }

/- ------------------------------------------------------------------
Submission (mjit.c:266-279, 366-389).
------------------------------------------------------------------- -/

/-- Write `iseq->body->jit_func = f` for iseq `i`. -/
def setJitFunc (i : Nat) (f : JitFunc) (s : MState) : MState :=
  { s with bodies := fun j => if j = i then { s.bodies j with jit_func := f } else s.bodies j }

/-- `create_unit` (mjit.c:266-279): allocate a fresh zeroed unit with id
`mjit_current_unit_num++`, point it at the iseq, and store it in the
iseq body's `jit_unit` cell.  Allocation success is assumed (the
`unit == NULL` early return is the failure path). -/
def create_unit (i : Nat) (s : MState) : MState × rb_mjit_unit :=
  let u : rb_mjit_unit :=
    { id := s.mjit_current_unit_num, iseq := some i, used_code_p := false, handle := false }
  ({ s with
      mjit_current_unit_num := s.mjit_current_unit_num + 1,
      bodies := fun j =>
        if j = i then { s.bodies j with jit_unit := some u.id } else s.bodies j },
   u)

/-- `mjit_add_iseq_to_process` (mjit.c:366-389): bail out when disabled
or PCH failed; otherwise set `jit_func` to `NOT_READY`, create a unit,
append its node to the tail of the queue (FIFO per the spec's list
contract), and run `unload_units` when the active list has reached
`max_cache_size`. -/
def mjit_add_iseq_to_process (threadStacks : List (List Nat)) (i : Nat) (s : MState) : MState :=
  if !s.mjit_enabled || s.pch_failed then s
  else
    let s1 := setJitFunc i .not_ready s
    let s2u := create_unit i s1
    let s3 := { s2u.1 with mjit_unit_queue := s2u.1.mjit_unit_queue ++ [s2u.2] }
    if (s3.mjit_active_units.length : Int) ≥ s3.mjit_opts.max_cache_size then
      unload_units threadStacks s3
    else s3

/- ------------------------------------------------------------------
Synchronous wait (mjit.c:391-420).
------------------------------------------------------------------- -/

/-- `#define MJIT_WAIT_TIMEOUT_SECONDS 60` (mjit.c:392). -/
def MJIT_WAIT_TIMEOUT_SECONDS : Nat := 60

/-- Observable outcome of one `mjit_get_iseq_func` call: the returned
value, the final content of the `jit_func` cell, the number of 1 ms
sleeps (`rb_thread_wait_for` calls), the number of writes to the cell,
and the number of warning lines printed. -/
structure WaitOutcome where
  ret : JitFunc
  final : JitFunc
  sleeps : Nat
  writes : Nat
  warned : Nat
deriving DecidableEq, Repr

set_option linter.unusedVariables false in
/-- The polling loop of `mjit_get_iseq_func` (mjit.c:403-418) in the
scenario the spec describes: no concurrent worker write, so the cell
keeps the value `jf` it had on entry unless the loop itself writes it.
Each iteration increments `tries`, gives up (cell := `NOT_COMPILED`,
one warning if `warn`) once `tries / 1000 > MJIT_WAIT_TIMEOUT_SECONDS`
or the PCH has failed, and otherwise broadcasts and sleeps 1 ms. -/
def mjit_get_iseq_func_loop (pchFailed : Bool) (warn : Bool) (jf : JitFunc)
    (tries : Nat) : WaitOutcome :=
  if jf = .not_ready then
    let t := tries + 1
    if t / 1000 > MJIT_WAIT_TIMEOUT_SECONDS ∨ pchFailed = true then
      { ret := .not_compiled, final := .not_compiled, sleeps := 0, writes := 1,
        warned := if warn then 1 else 0 }
    else
      let r := mjit_get_iseq_func_loop pchFailed warn jf t
      { r with sleeps := r.sleeps + 1 }
  else
    { ret := jf, final := jf, sleeps := 0, writes := 0, warned := 0 }
termination_by (MJIT_WAIT_TIMEOUT_SECONDS + 1) * 1000 - tries
decreasing_by
  rename_i hcond
  rw [not_or] at hcond
  have h1000 : t / 1000 ≤ MJIT_WAIT_TIMEOUT_SECONDS := Nat.not_lt.mp hcond.1
  unfold MJIT_WAIT_TIMEOUT_SECONDS at *
  omega

/-- `mjit_get_iseq_func` (mjit.c:396-420), with `warn` standing for
`mjit_opts.warnings || mjit_opts.verbose`. -/
def mjit_get_iseq_func (pchFailed : Bool) (warn : Bool) (jf : JitFunc) : WaitOutcome :=
  mjit_get_iseq_func_loop pchFailed warn jf 0

/- ------------------------------------------------------------------
Options, init (mjit.c:612-618, 645-702), class serials (mjit.c:840-862).
------------------------------------------------------------------- -/

/-- `#define DEFAULT_CACHE_SIZE 1000` (mjit.c:614). -/
def DEFAULT_CACHE_SIZE : Int := 1000

/-- `#define DEFAULT_MIN_CALLS_TO_ADD 5` (mjit.c:616). -/
def DEFAULT_MIN_CALLS_TO_ADD : Int := 5

/-- `#define MIN_CACHE_SIZE 10` (mjit.c:618). -/
def MIN_CACHE_SIZE : Int := 10

/-- The option normalization of `mjit_init` (mjit.c:652-658), in source
order: `min_calls == 0` becomes the default 5; `max_cache_size <= 0`
becomes the default 1000; a `max_cache_size` still below 10 is raised
to 10. -/
def normalize_opts (o : mjit_options) : mjit_options :=
  let o1 := if o.min_calls = 0 then { o with min_calls := DEFAULT_MIN_CALLS_TO_ADD } else o
  let o2 := if o1.max_cache_size ≤ 0 then { o1 with max_cache_size := DEFAULT_CACHE_SIZE } else o1
  if o2.max_cache_size < MIN_CACHE_SIZE then { o2 with max_cache_size := MIN_CACHE_SIZE } else o2

/-- `mjit_add_class_serial` (mjit.c:841-850): no-op when disabled, else
insert the serial into the valid set (hash-set semantics). -/
def mjit_add_class_serial (c : Int) (s : MState) : MState :=
  if !s.mjit_enabled then s
  else if c ∈ s.valid_class_serials then s
  else { s with valid_class_serials := c :: s.valid_class_serials }

/-- `mjit_remove_class_serial` (mjit.c:853-862): no-op when disabled,
else delete the serial from the valid set. -/
def mjit_remove_class_serial (c : Int) (s : MState) : MState :=
  if !s.mjit_enabled then s
  else { s with valid_class_serials := s.valid_class_serials.erase c }

/-- `mjit_init` (mjit.c:645-702): copy and normalize the options, raise
the enable flags, reset the PCH status, and on success initialize the
three lists and seed the class-serial set (`seedSerials` abstracts the
serials gathered from the root object, top self, and root constant
table).  `headerOk` is the outcome of `init_header_filename`, `workerOk`
of `start_worker`; either failure clears `mjit_enabled` again. -/
def mjit_init (opts : mjit_options) (headerOk workerOk : Bool) (seedSerials : List Int)
    (s : MState) : MState :=
  let s1 := { s with
      mjit_opts := normalize_opts opts,
      mjit_enabled := true, mjit_call_p := true, pch_failed := false }
  if !headerOk then { s1 with mjit_enabled := false }
  else
    let s2 := { s1 with
        mjit_unit_queue := ([] : List rb_mjit_unit),
        mjit_active_units := ([] : List rb_mjit_unit),
        mjit_compact_units := ([] : List rb_mjit_unit),
        valid_class_serials := ([] : List Int) }
    let s3 := seedSerials.foldl (fun st c => mjit_add_class_serial c st) s2
    if !workerOk then { s3 with mjit_enabled := false } else s3

/- ------------------------------------------------------------------
GC hooks, iseq free, mark (mjit.c:128-171, 816-838).
------------------------------------------------------------------- -/

/-- `mjit_gc_start_hook` (mjit.c:128-141): no-op when disabled; else
wait until the worker leaves the compile region, then raise `in_gc`.
In the single-threaded model a wait that depends on the worker clearing
`mjit_in_jit` is rendered as `none` (blocked). -/
def mjit_gc_start_hook (s : MState) : Option MState :=
  if !s.mjit_enabled then some s
  else if s.mjit_in_jit then none
  else some { s with mjit_in_gc := true }

/-- `mjit_gc_finish_hook` (mjit.c:145-155): no-op when disabled; else
clear `in_gc` and broadcast `gc_wakeup`. -/
def mjit_gc_finish_hook (s : MState) : MState :=
  if !s.mjit_enabled then s else { s with mjit_in_gc := false }

/-- Null the iseq backref of the unit with id `uid` wherever that unit
is linked (the C write `iseq->body->jit_unit->iseq = NULL` acts on the
shared unit object, hence on every list occurrence). -/
def nullIseqOf (uid : Nat) (l : List rb_mjit_unit) : List rb_mjit_unit :=
  l.map (fun u => if u.id = uid then { u with iseq := none } else u)

/-- `mjit_free_iseq` (mjit.c:159-171): no-op when disabled; else, when
the iseq has a unit, null that unit's iseq backref (the unit itself is
not freed here). -/
def mjit_free_iseq (i : Nat) (s : MState) : MState :=
  if !s.mjit_enabled then s
  else
    match (s.bodies i).jit_unit with
    | none => s
    | some uid =>
      { s with
          mjit_unit_queue := nullIseqOf uid s.mjit_unit_queue,
          mjit_active_units := nullIseqOf uid s.mjit_active_units,
          mjit_compact_units := nullIseqOf uid s.mjit_compact_units }

/-- `mjit_mark` (mjit.c:816-838): returns the iseqs marked (each queued
unit's iseq when still alive); the coordinator state is not changed. -/
def mjit_mark (s : MState) : List Nat :=
  if !s.mjit_enabled then []
  else s.mjit_unit_queue.filterMap (fun u => u.iseq)

/- ------------------------------------------------------------------
Continuations and teardown (mjit.c:199-264, 768-814).
------------------------------------------------------------------- -/

/-- `mjit_cont_new` (mjit.c:211-232): prepend the continuation (its
execution context, kept as its stack of iseq ids) to the registry. -/
def mjit_cont_new (ec : List Nat) (s : MState) : MState :=
  { s with first_cont := ec :: s.first_cont }

/-- `free_list` (mjit.c:184-193): walk the list freeing every unit and
every node; no node survives. -/
def free_list : List rb_mjit_unit → List rb_mjit_unit
  | [] => []
  | _ :: rest => free_list rest

/-- `finish_conts` (mjit.c:254-264): free every remaining continuation
record. -/
def finish_conts : List (List Nat) → List (List Nat)
  | [] => []
  | _ :: rest => finish_conts rest

/-- `mjit_finish` (mjit.c:768-814): no-op when disabled; else (after the
PCH wait and worker stop, which are pure synchronization) clear
`mjit_call_p`, free the three unit lists and the continuation registry,
and clear `mjit_enabled`. -/
def mjit_finish (s : MState) : MState :=
  if !s.mjit_enabled then s
  else
    { s with
        mjit_call_p := false,
        mjit_unit_queue := free_list s.mjit_unit_queue,
        mjit_active_units := free_list s.mjit_active_units,
        mjit_compact_units := free_list s.mjit_compact_units,
        first_cont := finish_conts s.first_cont,
        mjit_enabled := false }

/- ------------------------------------------------------------------
Concrete states for witnesses and counterexamples.
------------------------------------------------------------------- -/

/-- A quiescent enabled state: empty lists, default bodies, normalized
default options. -/
def baseState : MState :=
  { mjit_enabled := true, mjit_call_p := true, pch_failed := false,
    mjit_opts :=
      { min_calls := 5, max_cache_size := 1000, warnings := false, verbose := 0,
        save_temps := false },
    mjit_current_unit_num := 0,
    bodies := fun _ =>
      { jit_func := .not_added, jit_unit := none, total_calls := 0 },
    mjit_unit_queue := [], mjit_active_units := [], mjit_compact_units := [],
    first_cont := [], mjit_in_gc := false, mjit_in_jit := false,
    valid_class_serials := [] }

/-- `baseState` with the subsystem disabled. -/
def disabledState : MState := { baseState with mjit_enabled := false }

/-- `baseState` with iseq 0 already holding a compiled entry pointer. -/
def compiledState : MState :=
  { baseState with
      bodies := fun j =>
        if j = 0 then { jit_func := .fn 57, jit_unit := none, total_calls := 3 }
        else { jit_func := .not_added, jit_unit := none, total_calls := 0 } }

/-- Three active units for exercising the victim search: unit 5 is on a
stack, units 7 and 3 are evictable, and unit 3 (position 2) has the
smallest call count when calls are read off the `id` field. -/
def demoUnits : List rb_mjit_unit :=
  [⟨5, some 0, true, true⟩, ⟨7, some 1, false, true⟩, ⟨3, some 2, false, true⟩]

/-- An enabled state with two compiled active units (iseqs 0 and 1) and
a full cache (`max_cache_size = 1`), so that submissions trigger
eviction. -/
def activeDemoState : MState :=
  { baseState with
      mjit_active_units :=
        [⟨0, some 0, false, true⟩, ⟨1, some 1, false, true⟩],
      bodies := fun j => { jit_func := .fn j, jit_unit := some j, total_calls := j },
      mjit_opts := { min_calls := 5, max_cache_size := 1, warnings := false, verbose := 0,
                     save_temps := false } }

/-- A post-resubmission state: the stale unit 0 for iseq 0 is still in
the active list, but iseq 0's body already names the newer queued unit
2 through `jit_unit`; unit 1 is a healthy active unit for iseq 1 (its
body points back at it).  The cache is full (`max_cache_size = 1`). -/
def staleDemoState : MState :=
  { baseState with
      mjit_active_units :=
        [⟨0, some 0, false, true⟩, ⟨1, some 1, false, true⟩],
      mjit_unit_queue := [⟨2, some 0, false, false⟩],
      bodies := fun j =>
        if j = 0 then { jit_func := .not_ready, jit_unit := some 2, total_calls := 9 }
        else if j = 1 then { jit_func := .fn 1, jit_unit := some 1, total_calls := 5 }
        else { jit_func := .not_added, jit_unit := none, total_calls := 0 },
      mjit_opts := { min_calls := 5, max_cache_size := 1, warnings := false,
                     verbose := 0, save_temps := false } }

/-- Options with both tunables at zero, exercising the normalization
boundary. -/
def optsZero : mjit_options :=
  { min_calls := 0, max_cache_size := 0, warnings := false, verbose := 0,
    save_temps := false }

/- ==================================================================
Helper lemmas about the victim search.
================================================================== -/

theorem unusedMin_bound (calls : rb_mjit_unit → Nat) :
    ∀ (us : List rb_mjit_unit) (j : Nat) (u : rb_mjit_unit),
      unusedMin calls us = some (j, u) → j < us.length ∧ us.getD j default = u := by
  intro us
  induction us with
  | nil => intro j u h; simp [unusedMin] at h
  | cons a rest ih =>
    intro j u h
    by_cases ha : a.used_code_p
    · rw [unusedMin, if_pos ha] at h
      rcases hmin : unusedMin calls rest with _ | ⟨j1, v⟩ <;> rw [hmin] at h
      · simp at h
      · simp only [Option.map_some', Option.some.injEq, Prod.mk.injEq] at h
        obtain ⟨hj, hv⟩ := h
        subst hv
        obtain ⟨hlt, hget⟩ := ih j1 v hmin
        subst hj
        exact ⟨by simpa using Nat.succ_lt_succ hlt, by simpa [List.getD_cons_succ] using hget⟩
    · rw [unusedMin, if_neg ha] at h
      rcases hmin : unusedMin calls rest with _ | ⟨j1, v⟩ <;> rw [hmin] at h
      · simp only [Option.some.injEq, Prod.mk.injEq] at h
        obtain ⟨hj, hv⟩ := h
        subst hj; subst hv
        simp
      · dsimp only at h
        split_ifs at h <;>
          simp only [Option.some.injEq, Prod.mk.injEq] at h <;>
          obtain ⟨hj, hv⟩ := h <;> subst hv
        · subst hj; simp
        · obtain ⟨hlt, hget⟩ := ih j1 v hmin
          subst hj
          exact ⟨by simpa using Nat.succ_lt_succ hlt, by simpa [List.getD_cons_succ] using hget⟩

theorem unusedMin_none_iff (calls : rb_mjit_unit → Nat) :
    ∀ us : List rb_mjit_unit,
      unusedMin calls us = none ↔ ∀ u ∈ us, u.used_code_p = true := by
  intro us
  induction us with
  | nil => simp [unusedMin]
  | cons a rest ih =>
    by_cases ha : a.used_code_p
    · rw [unusedMin, if_pos ha]
      rcases hmin : unusedMin calls rest with _ | ⟨j1, v⟩
      · simpa [ha] using ih.mp hmin
      · simp only [Option.map_some']
        constructor
        · intro h; simp at h
        · intro h
          have : unusedMin calls rest = none := ih.mpr (fun u hu => h u (by simp [hu]))
          rw [this] at hmin; cases hmin
    · rw [unusedMin, if_neg ha]
      rcases hmin : unusedMin calls rest with _ | ⟨j1, v⟩
      · constructor
        · intro h; cases h
        · intro h
          exact absurd (h a (by simp)) (by simpa using ha)
      · constructor
        · intro h; dsimp only at h; split_ifs at h
        · intro h
          exact absurd (h a (by simp)) (by simpa using ha)

theorem getD_mem_of_lt (l : List rb_mjit_unit) (k : Nat) (h : k < l.length) :
    l.getD k default ∈ l := by
  rw [List.getD_eq_getElem _ _ h]; exact List.getElem_mem h

theorem unusedMin_first_min (calls : rb_mjit_unit → Nat) :
    ∀ (us : List rb_mjit_unit) (j : Nat) (u : rb_mjit_unit),
      unusedMin calls us = some (j, u) →
      u.used_code_p = false ∧
      (∀ k, k < us.length → (us.getD k default).used_code_p = false →
        calls u ≤ calls (us.getD k default)) ∧
      (∀ k, k < j → (us.getD k default).used_code_p = false →
        calls u < calls (us.getD k default)) := by
  intro us
  induction us with
  | nil => intro j u h; simp [unusedMin] at h
  | cons a rest ih =>
    intro j u h
    by_cases ha : a.used_code_p
    · rw [unusedMin, if_pos ha] at h
      rcases hmin : unusedMin calls rest with _ | ⟨j1, v⟩ <;> rw [hmin] at h
      · simp at h
      · simp only [Option.map_some', Option.some.injEq, Prod.mk.injEq] at h
        obtain ⟨hj, hv⟩ := h
        subst hv
        obtain ⟨hu, hmin2, hfirst⟩ := ih j1 v hmin
        refine ⟨hu, ?_, ?_⟩
        · intro k hk hku
          cases k with
          | zero =>
            rw [List.getD_cons_zero] at hku
            exact absurd hku (by simpa using ha)
          | succ k1 =>
            rw [List.getD_cons_succ] at hku ⊢
            exact hmin2 k1 (by simpa using hk) hku
        · intro k hk hku
          subst hj
          cases k with
          | zero =>
            rw [List.getD_cons_zero] at hku
            exact absurd hku (by simpa using ha)
          | succ k1 =>
            rw [List.getD_cons_succ] at hku ⊢
            exact hfirst k1 (by omega) hku
    · rw [unusedMin, if_neg ha] at h
      rcases hmin : unusedMin calls rest with _ | ⟨j1, v⟩ <;> rw [hmin] at h
      · simp only [Option.some.injEq, Prod.mk.injEq] at h
        obtain ⟨hj, hv⟩ := h
        subst hj; subst hv
        have hall := (unusedMin_none_iff calls rest).mp hmin
        refine ⟨by simpa using ha, ?_, fun k hk => absurd hk (Nat.not_lt_zero k)⟩
        intro k hk hku
        cases k with
        | zero => rw [List.getD_cons_zero]
        | succ k1 =>
          rw [List.getD_cons_succ] at hku
          have hk1 : k1 < rest.length := by simpa using hk
          have h2 := hall _ (getD_mem_of_lt rest k1 hk1)
          rw [hku] at h2
          exact absurd h2 (by decide)
      · dsimp only at h
        split_ifs at h with hle <;> simp only [Option.some.injEq, Prod.mk.injEq] at h <;>
          obtain ⟨hj, hv⟩ := h
        · subst hj; subst hv
          obtain ⟨hv2, hmin2, hfirst⟩ := ih j1 v hmin
          refine ⟨by simpa using ha, ?_, fun k hk => absurd hk (Nat.not_lt_zero k)⟩
          intro k hk hku
          cases k with
          | zero => rw [List.getD_cons_zero]
          | succ k1 =>
            rw [List.getD_cons_succ] at hku ⊢
            exact le_trans hle (hmin2 k1 (by simpa using hk) hku)
        · subst hj; subst hv
          obtain ⟨hv2, hmin2, hfirst⟩ := ih j1 v hmin
          have halt : calls v < calls a := Nat.lt_of_lt_of_le (Nat.not_le.mp hle) (le_refl _)
          refine ⟨hv2, ?_, ?_⟩
          · intro k hk hku
            cases k with
            | zero => rw [List.getD_cons_zero]; exact le_of_lt halt
            | succ k1 =>
              rw [List.getD_cons_succ] at hku ⊢
              exact hmin2 k1 (by simpa using hk) hku
          · intro k hk hku
            cases k with
            | zero => rw [List.getD_cons_zero]; exact halt
            | succ k1 =>
              rw [List.getD_cons_succ] at hku ⊢
              exact hfirst k1 (by omega) hku

theorem some_pair_shift (pos j : Nat) (u : rb_mjit_unit) :
    (some (pos + 1 + j, u) : Option (Nat × rb_mjit_unit)) = some (pos + (j + 1), u) := by
  have h : pos + 1 + j = pos + (j + 1) := by omega
  rw [h]

/-- The left-to-right victim scan of `unload_units` computes the
first-position minimum over the unused units, merged with the incoming
accumulator exactly by the strict comparison of the C loop. -/
theorem findWorstAux_eq (calls : rb_mjit_unit → Nat) :
    ∀ (us : List rb_mjit_unit) (pos : Nat) (worst : Option (Nat × rb_mjit_unit)),
      findWorstAux calls us pos worst =
        mergeWorst calls pos (unusedMin calls us) worst := by
  intro us
  induction us with
  | nil =>
    intro pos worst
    rcases worst with _ | ⟨wi, w⟩ <;> simp [findWorstAux, unusedMin, mergeWorst]
  | cons a rest ih =>
    intro pos worst
    by_cases ha : a.used_code_p
    · rw [findWorstAux.eq_def]
      simp only [ha, if_true]
      rw [ih, unusedMin, if_pos ha]
      rcases hmin : unusedMin calls rest with _ | ⟨j, u⟩
      · rcases worst with _ | ⟨wi, w⟩ <;> simp [mergeWorst]
      · rcases worst with _ | ⟨wi, w⟩
        · simp only [Option.map_some', mergeWorst]
          exact some_pair_shift pos j u
        · simp only [Option.map_some', mergeWorst]
          split_ifs with hwu
          · exact some_pair_shift pos j u
          · rfl
    · rw [findWorstAux.eq_def]
      simp only [ha, if_false, Bool.false_eq_true]
      have hcons : unusedMin calls (a :: rest) =
          match unusedMin calls rest with
          | none => some (0, a)
          | some (j, w) => if calls a ≤ calls w then some (0, a) else some (j + 1, w) := by
        rw [unusedMin, if_neg ha]
      rcases worst with _ | ⟨wi, w⟩
      · rw [ih, hcons]
        rcases hmin : unusedMin calls rest with _ | ⟨j, u⟩
        · simp [mergeWorst]
        · dsimp only
          by_cases hau : calls a ≤ calls u
          · rw [if_pos hau]
            simp only [mergeWorst]
            rw [if_neg (by omega : ¬ calls a > calls u), Nat.add_zero]
          · rw [if_neg hau]
            simp only [mergeWorst]
            rw [if_pos (by omega : calls a > calls u)]
            exact some_pair_shift pos j u
      · dsimp only
        by_cases hwa : calls w > calls a
        · rw [if_pos hwa, ih, hcons]
          rcases hmin : unusedMin calls rest with _ | ⟨j, u⟩
          · simp only [mergeWorst]
            rw [if_pos hwa]
            rw [Nat.add_zero]
          · dsimp only
            by_cases hau : calls a ≤ calls u
            · rw [if_pos hau]
              simp only [mergeWorst]
              rw [if_neg (by omega : ¬ calls a > calls u), if_pos hwa, Nat.add_zero]
            · rw [if_neg hau]
              simp only [mergeWorst]
              rw [if_pos (by omega : calls a > calls u),
                if_pos (by omega : calls w > calls u)]
              exact some_pair_shift pos j u
        · rw [if_neg hwa, ih, hcons]
          rcases hmin : unusedMin calls rest with _ | ⟨j, u⟩
          · simp only [mergeWorst]
            rw [if_neg hwa]
          · dsimp only
            by_cases hau : calls a ≤ calls u
            · rw [if_pos hau]
              simp only [mergeWorst]
              rw [if_neg (by omega : ¬ calls w > calls u), if_neg hwa]
            · rw [if_neg hau]
              simp only [mergeWorst]
              by_cases hwu : calls w > calls u
              · rw [if_pos hwu, if_pos hwu]
                exact some_pair_shift pos j u
              · rw [if_neg hwu, if_neg hwu]

theorem pickWorst_eq (calls : rb_mjit_unit → Nat) (us : List rb_mjit_unit) :
    pickWorst calls us = (unusedMin calls us).map Prod.fst := by
  unfold pickWorst
  rw [findWorstAux_eq]
  rcases hmin : unusedMin calls us with _ | ⟨j, u⟩ <;> simp [mergeWorst]

theorem pickWorst_none_iff (calls : rb_mjit_unit → Nat) (us : List rb_mjit_unit) :
    pickWorst calls us = none ↔ ∀ u ∈ us, u.used_code_p = true := by
  rw [pickWorst_eq, Option.map_eq_none', unusedMin_none_iff]

theorem pickWorst_isFirstMin (calls : rb_mjit_unit → Nat) (us : List rb_mjit_unit)
    (i : Nat) (h : pickWorst calls us = some i) : isFirstMinUnused calls us i := by
  rw [pickWorst_eq] at h
  rcases hmin : unusedMin calls us with _ | ⟨j, u⟩ <;> rw [hmin] at h
  · cases h
  · simp only [Option.map_some', Option.some.injEq] at h
    subst h
    obtain ⟨hlt, hget⟩ := unusedMin_bound calls us j u hmin
    obtain ⟨hu, hmin2, hfirst⟩ := unusedMin_first_min calls us j u hmin
    rw [← hget] at hu hmin2 hfirst
    exact ⟨hlt, hu, hmin2, hfirst⟩

theorem pickWorst_lt_length (calls : rb_mjit_unit → Nat) (us : List rb_mjit_unit)
    (i : Nat) (h : pickWorst calls us = some i) : i < us.length :=
  (pickWorst_isFirstMin calls us i h).1

theorem evictLoop_of_le (calls : rb_mjit_unit → Nat) (target : Int)
    (us : List rb_mjit_unit) (h : (us.length : Int) ≤ target) :
    evictLoop calls target us = us := by
  unfold evictLoop
  rw [if_neg (Int.not_lt.mpr h)]

theorem evictLoop_of_none (calls : rb_mjit_unit → Nat) (target : Int)
    (us : List rb_mjit_unit) (hgt : (us.length : Int) > target)
    (hnone : pickWorst calls us = none) : evictLoop calls target us = us := by
  unfold evictLoop
  rw [if_pos hgt, hnone]

theorem evictLoop_step (calls : rb_mjit_unit → Nat) (target : Int)
    (us : List rb_mjit_unit) (i : Nat) (hgt : (us.length : Int) > target)
    (hsome : pickWorst calls us = some i) :
    evictLoop calls target us = evictLoop calls target (us.eraseIdx i) := by
  have hi : i < us.length := pickWorst_lt_length calls us i hsome
  conv_lhs => unfold evictLoop
  rw [if_pos hgt, hsome]
  dsimp only
  rw [dif_pos hi]

theorem eraseIdx_cons_zero_units (a : rb_mjit_unit) (rest : List rb_mjit_unit) :
    (a :: rest).eraseIdx 0 = rest := rfl

theorem eraseIdx_cons_succ_units (a : rb_mjit_unit) (rest : List rb_mjit_unit) (i : Nat) :
    (a :: rest).eraseIdx (i + 1) = a :: rest.eraseIdx i := rfl

theorem mem_eraseIdx_of_ne :
    ∀ (l : List rb_mjit_unit) (i : Nat) (u : rb_mjit_unit),
      u ∈ l → l.getD i default ≠ u → u ∈ l.eraseIdx i := by
  intro l
  induction l with
  | nil => intro i u hm _; cases hm
  | cons a rest ih =>
    intro i u hm hne
    cases i with
    | zero =>
      rw [List.getD_cons_zero] at hne
      rcases List.mem_cons.mp hm with he | hm2
      · exact absurd he.symm hne
      · rw [eraseIdx_cons_zero_units]; exact hm2
    | succ i1 =>
      rw [List.getD_cons_succ] at hne
      rcases List.mem_cons.mp hm with he | hm2
      · subst he; rw [eraseIdx_cons_succ_units]; exact List.mem_cons_self _ _
      · rw [eraseIdx_cons_succ_units]
        exact List.mem_cons.mpr (Or.inr (ih i1 u hm2 hne))

theorem evictLoop_keeps_used (calls : rb_mjit_unit → Nat) (target : Int) :
    ∀ (n : Nat) (us : List rb_mjit_unit), us.length ≤ n →
      ∀ u, u ∈ us → u.used_code_p = true → u ∈ evictLoop calls target us := by
  intro n
  induction n with
  | zero =>
    intro us hlen u hmem _
    have hnil : us = [] := List.length_eq_zero.mp (Nat.le_zero.mp hlen)
    subst hnil; cases hmem
  | succ n ih =>
    intro us hlen u hmem hused
    by_cases hgt : (us.length : Int) > target
    · rcases hpick : pickWorst calls us with _ | i
      · rw [evictLoop_of_none calls target us hgt hpick]; exact hmem
      · rw [evictLoop_step calls target us i hgt hpick]
        have hi : i < us.length := pickWorst_lt_length calls us i hpick
        have hun : (us.getD i default).used_code_p = false :=
          (pickWorst_isFirstMin calls us i hpick).2.1
        have hne : us.getD i default ≠ u := by
          intro he; rw [he, hused] at hun; cases hun
        have hlen2 : (us.eraseIdx i).length ≤ n := by
          rw [List.length_eraseIdx, if_pos hi]; omega
        exact ih (us.eraseIdx i) hlen2 u (mem_eraseIdx_of_ne us i u hmem hne) hused
    · rw [evictLoop_of_le calls target us (Int.not_lt.mp hgt)]; exact hmem

theorem evictLoop_all_used (calls : rb_mjit_unit → Nat) (target : Int)
    (us : List rb_mjit_unit) (hall : ∀ u ∈ us, u.used_code_p = true) :
    evictLoop calls target us = us := by
  by_cases hgt : (us.length : Int) > target
  · exact evictLoop_of_none calls target us hgt ((pickWorst_none_iff calls us).mpr hall)
  · exact evictLoop_of_le calls target us (Int.not_lt.mp hgt)

/- ==================================================================
Helper lemmas: wait loop, submission effect, init, teardown.
================================================================== -/

theorem get_loop_done (pch warn : Bool) (jf : JitFunc) (tries : Nat)
    (h : jf ≠ .not_ready) :
    mjit_get_iseq_func_loop pch warn jf tries =
      { ret := jf, final := jf, sleeps := 0, writes := 0, warned := 0 } := by
  unfold mjit_get_iseq_func_loop
  rw [if_neg h]

theorem get_loop_pch_failure (warn : Bool) (tries : Nat) :
    mjit_get_iseq_func_loop true warn .not_ready tries =
      { ret := .not_compiled, final := .not_compiled, sleeps := 0, writes := 1,
        warned := if warn then 1 else 0 } := by
  unfold mjit_get_iseq_func_loop
  rw [if_pos rfl]
  rw [if_pos (Or.inr rfl)]

theorem get_loop_timeout (warn : Bool) :
    ∀ (k tries : Nat), tries + k = 60999 →
      mjit_get_iseq_func_loop false warn .not_ready tries =
        { ret := .not_compiled, final := .not_compiled, sleeps := k, writes := 1,
          warned := if warn then 1 else 0 } := by
  intro k
  induction k with
  | zero =>
    intro tries h
    have ht : tries = 60999 := by omega
    subst ht
    unfold mjit_get_iseq_func_loop
    rw [if_pos rfl]
    rw [if_pos (Or.inl (by decide))]
  | succ k ih =>
    intro tries h
    unfold mjit_get_iseq_func_loop
    rw [if_pos rfl]
    rw [if_neg (by
      rw [not_or]
      refine ⟨?_, by simp⟩
      simp only [MJIT_WAIT_TIMEOUT_SECONDS, Nat.not_lt]
      omega)]
    rw [ih (tries + 1) (by omega)]

theorem mjit_get_iseq_func_timeout (warn : Bool) :
    mjit_get_iseq_func false warn .not_ready =
      { ret := .not_compiled, final := .not_compiled, sleeps := 60999, writes := 1,
        warned := if warn then 1 else 0 } :=
  get_loop_timeout warn 60999 0 rfl

/-- The effect of one enabled, PCH-healthy submission on the counter,
the iseq body, and the queue. -/
theorem add_iseq_effect (threadStacks : List (List Nat)) (i : Nat) (s : MState)
    (hen : s.mjit_enabled = true) (hpch : s.pch_failed = false) :
    (mjit_add_iseq_to_process threadStacks i s).mjit_current_unit_num =
      s.mjit_current_unit_num + 1
  ∧ ((mjit_add_iseq_to_process threadStacks i s).bodies i).jit_func = .not_ready
  ∧ ((mjit_add_iseq_to_process threadStacks i s).bodies i).jit_unit =
      some s.mjit_current_unit_num
  ∧ (mjit_add_iseq_to_process threadStacks i s).mjit_unit_queue =
      s.mjit_unit_queue ++ [⟨s.mjit_current_unit_num, some i, false, false⟩] := by
  unfold mjit_add_iseq_to_process
  simp only [hen, hpch, Bool.not_true, Bool.false_or, Bool.false_eq_true, if_false]
  split
  · exact ⟨rfl, by simp [unload_units, create_unit, setJitFunc],
      by simp [unload_units, create_unit, setJitFunc], rfl⟩
  · exact ⟨rfl, by simp [create_unit, setJitFunc],
      by simp [create_unit, setJitFunc], rfl⟩

theorem foldl_add_class_serial_opts (cs : List Int) :
    ∀ s : MState,
      (cs.foldl (fun st c => mjit_add_class_serial c st) s).mjit_opts = s.mjit_opts := by
  induction cs with
  | nil => intro s; rfl
  | cons c rest ih =>
    intro s
    rw [List.foldl_cons, ih]
    unfold mjit_add_class_serial
    split_ifs <;> rfl

theorem mjit_init_opts_eq (opts : mjit_options) (hOk wOk : Bool) (seeds : List Int)
    (s : MState) :
    (mjit_init opts hOk wOk seeds s).mjit_opts = normalize_opts opts := by
  unfold mjit_init
  split_ifs
  · rfl
  · exact foldl_add_class_serial_opts seeds _
  · exact foldl_add_class_serial_opts seeds _

theorem normalize_opts_min_calls (opts : mjit_options) (h : opts.min_calls = 0) :
    (normalize_opts opts).min_calls = DEFAULT_MIN_CALLS_TO_ADD := by
  unfold normalize_opts
  dsimp only
  split_ifs <;>
    simp only [DEFAULT_MIN_CALLS_TO_ADD, DEFAULT_CACHE_SIZE, MIN_CACHE_SIZE] at *

theorem normalize_opts_cache_default (opts : mjit_options) (h : opts.max_cache_size ≤ 0) :
    (normalize_opts opts).max_cache_size = DEFAULT_CACHE_SIZE := by
  unfold normalize_opts
  dsimp only
  split_ifs <;>
      (try simp only [DEFAULT_MIN_CALLS_TO_ADD, DEFAULT_CACHE_SIZE, MIN_CACHE_SIZE] at *) <;>
    omega

theorem normalize_opts_cache_min (opts : mjit_options) :
    MIN_CACHE_SIZE ≤ (normalize_opts opts).max_cache_size := by
  unfold normalize_opts
  dsimp only
  split_ifs <;>
      (try simp only [DEFAULT_MIN_CALLS_TO_ADD, DEFAULT_CACHE_SIZE, MIN_CACHE_SIZE] at *) <;>
    omega

theorem free_list_eq_nil : ∀ l : List rb_mjit_unit, free_list l = [] := by
  intro l
  induction l with
  | nil => rfl
  | cons a rest ih => exact ih

theorem finish_conts_eq_nil : ∀ l : List (List Nat), finish_conts l = [] := by
  intro l
  induction l with
  | nil => rfl
  | cons a rest ih => exact ih

/- ==================================================================
Claim theorems.
================================================================== -/

/-- Claim C1: each iteration of the eviction loop of `unload_units`
picks, among the units of the (swept and marked) active list whose
`used_code_p` flag is false, the one whose iseq has the smallest
`total_calls`, ties broken by first-encountered position in list order,
evicts exactly it, and the loop stops once the list length is down to
the target or no evictable unit exists; `unload_units` runs exactly
this loop. -/
theorem unload_eviction_picks_first_min_and_stops
    (calls : rb_mjit_unit → Nat) (target : Int) (us : List rb_mjit_unit)
    (threadStacks : List (List Nat)) (s : MState) :
    ((unload_units threadStacks s).mjit_active_units =
      evictLoop (callsOf s)
        (s.mjit_opts.max_cache_size -
          ((markActive s.bodies (stackIseqIds threadStacks s)
              s.mjit_active_units).length : Int) / 10)
        (markActive s.bodies (stackIseqIds threadStacks s) s.mjit_active_units))
  ∧ (pickWorst calls us = none ↔ ∀ u ∈ us, u.used_code_p = true)
  ∧ (∀ i, pickWorst calls us = some i → isFirstMinUnused calls us i)
  ∧ ((us.length : Int) ≤ target → evictLoop calls target us = us)
  ∧ ((us.length : Int) > target → pickWorst calls us = none →
      evictLoop calls target us = us)
  ∧ ((us.length : Int) > target → ∀ i, pickWorst calls us = some i →
      evictLoop calls target us = evictLoop calls target (us.eraseIdx i)) :=
  ⟨rfl, pickWorst_none_iff calls us,
    fun i => pickWorst_isFirstMin calls us i,
    fun h => evictLoop_of_le calls target us h,
    fun h hn => evictLoop_of_none calls target us h hn,
    fun h i hi => evictLoop_step calls target us i h hi⟩

theorem unload_eviction_picks_first_min_and_stops_witness :
    isFirstMinUnused (fun u => u.id) demoUnits 2 ∧
    evictLoop (fun u => u.id) 1 demoUnits =
      evictLoop (fun u => u.id) 1 (demoUnits.eraseIdx 2) := by
  have h := unload_eviction_picks_first_min_and_stops
    (fun u => u.id) 1 demoUnits [] baseState
  exact ⟨h.2.2.1 2 (by decide), h.2.2.2.2.2 (by decide) 2 (by decide)⟩

/-- Claim C2 counterexample: in `staleDemoState`, the stale active unit
0's iseq 0 appears on a live thread stack, yet the scan — which follows
`iseq->body->jit_unit`, here naming the newer queued unit 2 — leaves
unit 0 unmarked, and the eviction loop evicts it: no unit for iseq 0
remains in the active list when `unload_units` returns. -/
theorem live_stale_unit_evicted :
    ((⟨0, some 0, false, true⟩ : rb_mjit_unit) ∈ staleDemoState.mjit_active_units)
  ∧ ((0 : Nat) ∈ stackIseqIds [[0], [1]] staleDemoState)
  ∧ ((unload_units [[0], [1]] staleDemoState).mjit_active_units =
      [⟨1, some 1, true, true⟩])
  ∧ (∀ u ∈ (unload_units [[0], [1]] staleDemoState).mjit_active_units,
      ¬ (u.iseq = some 0)) := by
  have hmark : markActive staleDemoState.bodies (stackIseqIds [[0], [1]] staleDemoState)
      staleDemoState.mjit_active_units =
      [⟨0, some 0, false, true⟩, ⟨1, some 1, true, true⟩] := by decide
  have hres : (unload_units [[0], [1]] staleDemoState).mjit_active_units =
      [⟨1, some 1, true, true⟩] := by
    unfold unload_units
    dsimp only
    rw [hmark]
    have htar : staleDemoState.mjit_opts.max_cache_size -
        ((([(⟨0, some 0, false, true⟩ : rb_mjit_unit),
            ⟨1, some 1, true, true⟩].length) : Int) / 10) = 1 := by decide
    rw [htar]
    rw [evictLoop_step (callsOf staleDemoState) 1 _ 0 (by decide) (by decide)]
    exact evictLoop_of_le (callsOf staleDemoState) 1 _ (by decide)
  refine ⟨by decide, by decide, hres, ?_⟩
  rw [hres]
  decide

/-- Claim C2 (amended): every active unit that the liveness scan of
`unload_units` actually marks as used — the scan follows each live
frame iseq's `jit_unit` pointer, so it marks the unit currently
referenced by an iseq body, which after a resubmission need not be the
active unit whose backref names that iseq — is not evicted: its marked
copy is still in the active list when `unload_units` returns.  A stale
active unit whose iseq is on a live stack but whose body's `jit_unit`
names a newer unit is not marked and may be evicted. -/
theorem scan_marked_units_survive_unload (threadStacks : List (List Nat)) (s : MState)
    (u : rb_mjit_unit) (hmem : u ∈ s.mjit_active_units)
    (hsome : u.iseq.isSome = true)
    (hmark : (stackIseqIds threadStacks s).any
      (fun j => (s.bodies j).jit_unit == some u.id) = true) :
    { u with used_code_p := true } ∈ (unload_units threadStacks s).mjit_active_units := by
  have hmark2 : { u with used_code_p := true } ∈
      markActive s.bodies (stackIseqIds threadStacks s) s.mjit_active_units := by
    unfold markActive markUsed clearUsed sweepActive
    refine List.mem_map.mpr ⟨{ u with used_code_p := false }, ?_, ?_⟩
    · exact List.mem_map.mpr ⟨u, List.mem_filter.mpr ⟨hmem, hsome⟩, rfl⟩
    · simp [hmark]
  exact evictLoop_keeps_used (callsOf s)
    (s.mjit_opts.max_cache_size -
      ((markActive s.bodies (stackIseqIds threadStacks s)
          s.mjit_active_units).length : Int) / 10)
    (markActive s.bodies (stackIseqIds threadStacks s) s.mjit_active_units).length
    (markActive s.bodies (stackIseqIds threadStacks s) s.mjit_active_units)
    le_rfl _ hmark2 rfl

theorem scan_marked_units_survive_unload_witness :
    ({ id := 0, iseq := some 0, used_code_p := true, handle := true } : rb_mjit_unit) ∈
      (unload_units [[0]] activeDemoState).mjit_active_units :=
  scan_marked_units_survive_unload [[0]] activeDemoState
    ⟨0, some 0, false, true⟩ (by decide) (by decide) (by decide)

/-- Claim C9: when every unit in the active list has `used_code_p` set
to true as the eviction loop of `unload_units` starts (all units
marked), the loop terminates without evicting any unit: no progress is
made, no unit is removed, and the loop does not run forever —
`unload_units` returns exactly the swept-and-marked active list. -/
theorem all_used_units_no_eviction (threadStacks : List (List Nat)) (s : MState)
    (hall : ∀ u ∈ markActive s.bodies (stackIseqIds threadStacks s) s.mjit_active_units,
      u.used_code_p = true) :
    (unload_units threadStacks s).mjit_active_units =
      markActive s.bodies (stackIseqIds threadStacks s) s.mjit_active_units := by
  apply evictLoop_all_used
  exact hall

theorem all_used_units_no_eviction_witness :
    (unload_units [[0], [1]] activeDemoState).mjit_active_units =
      markActive activeDemoState.bodies (stackIseqIds [[0], [1]] activeDemoState)
        activeDemoState.mjit_active_units :=
  all_used_units_no_eviction [[0], [1]] activeDemoState (by decide)

/-- Claim C3 counterexample: submitting iseq 0 twice from the quiescent
enabled state leaves two units for iseq 0 in the queue — `create_unit`
allocates unconditionally — refuting "at most one unit per iseq". -/
theorem add_iseq_twice_creates_two_units :
    ((mjit_add_iseq_to_process [] 0
        (mjit_add_iseq_to_process [] 0 baseState)).mjit_unit_queue.countP
      (fun u => u.iseq == some 0)) = 2 ∧
    ¬ (((mjit_add_iseq_to_process [] 0
        (mjit_add_iseq_to_process [] 0 baseState)).mjit_unit_queue.countP
      (fun u => u.iseq == some 0)) ≤ 1) := by
  constructor <;> decide

/-- Claim C3 (amended): each call of `mjit_add_iseq_to_process` with the
subsystem enabled and the PCH healthy unconditionally creates one fresh
unit — the unit counter advances by one, exactly one more queued unit
references the iseq — so two submissions of the same iseq create two
units; the iseq body's `jit_unit` cell references only the newest
one. -/
theorem add_iseq_creates_fresh_unit (threadStacks : List (List Nat)) (i : Nat)
    (s : MState) (hen : s.mjit_enabled = true) (hpch : s.pch_failed = false) :
    (mjit_add_iseq_to_process threadStacks i s).mjit_current_unit_num =
      s.mjit_current_unit_num + 1
  ∧ ((mjit_add_iseq_to_process threadStacks i s).bodies i).jit_unit =
      some s.mjit_current_unit_num
  ∧ (mjit_add_iseq_to_process threadStacks i s).mjit_unit_queue.countP
      (fun u => u.iseq == some i) =
    s.mjit_unit_queue.countP (fun u => u.iseq == some i) + 1 := by
  obtain ⟨h1, _, h3, h4⟩ := add_iseq_effect threadStacks i s hen hpch
  refine ⟨h1, h3, ?_⟩
  rw [h4, List.countP_append]
  simp

theorem add_iseq_creates_fresh_unit_witness :
    (mjit_add_iseq_to_process [] 5 baseState).mjit_current_unit_num = 1
  ∧ ((mjit_add_iseq_to_process [] 5 baseState).bodies 5).jit_unit = some 0
  ∧ (mjit_add_iseq_to_process [] 5 baseState).mjit_unit_queue.countP
      (fun u => u.iseq == some 5) = 1 := by
  have h := add_iseq_creates_fresh_unit [] 5 baseState rfl rfl
  simpa [baseState] using h

/-- Claim C4 counterexample: on `compiledState`, iseq 0's `jit_func`
holds the terminal pointer `fn 57`, yet a later
`mjit_add_iseq_to_process` on iseq 0 resets the cell to `NOT_READY`: a
terminal value is reverted by a coordinator operation. -/
theorem add_iseq_reverts_terminal_jit_func :
    (compiledState.bodies 0).jit_func = .fn 57
  ∧ ((mjit_add_iseq_to_process [] 0 compiledState).bodies 0).jit_func = .not_ready
  ∧ ¬ (((mjit_add_iseq_to_process [] 0 compiledState).bodies 0).jit_func = .fn 57) := by
  refine ⟨?_, ?_, ?_⟩ <;> decide

/-- Claim C4 (amended): `mjit_get_iseq_func` transitions the `jit_func`
cell out of `NOT_READY` at most once — writing only `NOT_COMPILED` —
and never touches a cell that is not `NOT_READY`;
`mjit_add_iseq_to_process`, however, unconditionally resets the cell of
the submitted iseq to `NOT_READY`, so a later submission of the same
iseq does revert a terminal cell. -/
theorem jit_func_transition_discipline (pch warn : Bool) (jf : JitFunc)
    (threadStacks : List (List Nat)) (i : Nat) (s : MState)
    (hen : s.mjit_enabled = true) (hpch : s.pch_failed = false) :
    ((mjit_add_iseq_to_process threadStacks i s).bodies i).jit_func = .not_ready
  ∧ (mjit_get_iseq_func pch warn jf).writes ≤ 1
  ∧ (jf ≠ .not_ready → mjit_get_iseq_func pch warn jf =
      { ret := jf, final := jf, sleeps := 0, writes := 0, warned := 0 })
  ∧ ((mjit_get_iseq_func pch warn jf).writes = 1 →
      jf = .not_ready ∧ (mjit_get_iseq_func pch warn jf).final = .not_compiled) := by
  refine ⟨(add_iseq_effect threadStacks i s hen hpch).2.1, ?_, ?_, ?_⟩
  · by_cases hjf : jf = .not_ready
    · subst hjf
      cases pch
      · rw [mjit_get_iseq_func, get_loop_timeout warn 60999 0 rfl]
      · rw [mjit_get_iseq_func, get_loop_pch_failure warn 0]
    · rw [mjit_get_iseq_func, get_loop_done pch warn jf 0 hjf]
      exact Nat.zero_le 1
  · intro hjf
    rw [mjit_get_iseq_func, get_loop_done pch warn jf 0 hjf]
  · intro hw
    by_cases hjf : jf = .not_ready
    · subst hjf
      refine ⟨rfl, ?_⟩
      cases pch
      · rw [mjit_get_iseq_func, get_loop_timeout warn 60999 0 rfl]
      · rw [mjit_get_iseq_func, get_loop_pch_failure warn 0]
    · rw [mjit_get_iseq_func, get_loop_done pch warn jf 0 hjf] at hw
      cases hw

theorem jit_func_transition_discipline_witness :
    ((mjit_add_iseq_to_process [] 0 compiledState).bodies 0).jit_func = .not_ready
  ∧ mjit_get_iseq_func false false (.fn 57) =
      { ret := .fn 57, final := .fn 57, sleeps := 0, writes := 0, warned := 0 } := by
  have h := jit_func_transition_discipline false false (.fn 57) [] 0 compiledState rfl rfl
  exact ⟨h.1, h.2.2.1 (by decide)⟩

/-- Claim C5 counterexample: with the PCH healthy and the cell stuck at
`NOT_READY`, `mjit_get_iseq_func` performs 60 999 one-millisecond
sleeps before giving up at the 61 000th check — not the 60 000 polls
the claim states. -/
theorem get_iseq_func_poll_count :
    (mjit_get_iseq_func false true .not_ready).sleeps = 60999 ∧
    ¬ ((mjit_get_iseq_func false true .not_ready).sleeps = 60000) := by
  rw [mjit_get_iseq_func, get_loop_timeout true 60999 0 rfl]
  exact ⟨rfl, by decide⟩

/-- Claim C5 (amended): `mjit_get_iseq_func` returns the `jit_func`
value immediately — zero sleeps, no write, no warning — when the cell
is not `NOT_READY`; when the cell stays `NOT_READY` it returns
`NOT_COMPILED` with zero sleeps upon a failed PCH, and with a healthy
PCH gives up at the 61 000th check, i.e. after 60 999 polls of 1 ms
each (about 61 s, not 60 000 polls), in both cases writing
`NOT_COMPILED` into the cell and printing one warning exactly when
warnings/verbose is on — never more than one. -/
theorem get_iseq_func_wait_behavior (pch warn : Bool) (jf : JitFunc) :
    (jf ≠ .not_ready → mjit_get_iseq_func pch warn jf =
      { ret := jf, final := jf, sleeps := 0, writes := 0, warned := 0 })
  ∧ (mjit_get_iseq_func true warn .not_ready =
      { ret := .not_compiled, final := .not_compiled, sleeps := 0, writes := 1,
        warned := if warn then 1 else 0 })
  ∧ (mjit_get_iseq_func false warn .not_ready =
      { ret := .not_compiled, final := .not_compiled, sleeps := 60999, writes := 1,
        warned := if warn then 1 else 0 })
  ∧ (mjit_get_iseq_func pch warn jf).warned ≤ 1 := by
  refine ⟨?_, ?_, ?_, ?_⟩
  · intro hjf
    rw [mjit_get_iseq_func, get_loop_done pch warn jf 0 hjf]
  · rw [mjit_get_iseq_func, get_loop_pch_failure warn 0]
  · rw [mjit_get_iseq_func, get_loop_timeout warn 60999 0 rfl]
  · by_cases hjf : jf = .not_ready
    · subst hjf
      cases pch
      · rw [mjit_get_iseq_func, get_loop_timeout warn 60999 0 rfl]
        cases warn <;> simp
      · rw [mjit_get_iseq_func, get_loop_pch_failure warn 0]
        cases warn <;> simp
    · rw [mjit_get_iseq_func, get_loop_done pch warn jf 0 hjf]
      exact Nat.zero_le 1

theorem get_iseq_func_wait_behavior_witness :
    mjit_get_iseq_func false false (.fn 9) =
      { ret := .fn 9, final := .fn 9, sleeps := 0, writes := 0, warned := 0 } :=
  (get_iseq_func_wait_behavior false false (.fn 9)).1 (by decide)

/-- Claim C6 counterexample: `max_cache_size = 0` is caught by the
non-positive default branch of the normalization in `mjit_init`, so it
becomes 1000, not the minimum 10. -/
theorem max_cache_size_zero_goes_to_default :
    (mjit_init optsZero true true [] baseState).mjit_opts.max_cache_size = 1000 ∧
    ¬ ((mjit_init optsZero true true [] baseState).mjit_opts.max_cache_size = 10) := by
  constructor <;> decide

/-- Claim C6 (amended): when init is called with `max_cache_size = 0`
in the options, the normalized `max_cache_size` is the default 1000
(the `<= 0` default branch precedes the minimum clamp), not the
minimum 10. -/
theorem init_cache_size_zero_normalization (opts : mjit_options) (hOk wOk : Bool)
    (seeds : List Int) (s : MState) (h : opts.max_cache_size = 0) :
    (mjit_init opts hOk wOk seeds s).mjit_opts.max_cache_size = DEFAULT_CACHE_SIZE := by
  rw [mjit_init_opts_eq opts hOk wOk seeds s]
  exact normalize_opts_cache_default opts (by omega)

theorem init_cache_size_zero_normalization_witness :
    (mjit_init optsZero true true [] baseState).mjit_opts.max_cache_size =
      DEFAULT_CACHE_SIZE :=
  init_cache_size_zero_normalization optsZero true true [] baseState (by decide)

/-- Claim C7: init normalizes the options: a `min_calls` of 0 becomes
5, a non-positive `max_cache_size` becomes the default 1000, and the
normalized `max_cache_size` is always at least 10. -/
theorem init_normalizes_options (opts : mjit_options) (hOk wOk : Bool)
    (seeds : List Int) (s : MState) :
    (mjit_init opts hOk wOk seeds s).mjit_opts = normalize_opts opts
  ∧ (opts.min_calls = 0 → (normalize_opts opts).min_calls = DEFAULT_MIN_CALLS_TO_ADD)
  ∧ (opts.max_cache_size ≤ 0 →
      (normalize_opts opts).max_cache_size = DEFAULT_CACHE_SIZE)
  ∧ MIN_CACHE_SIZE ≤ (normalize_opts opts).max_cache_size :=
  ⟨mjit_init_opts_eq opts hOk wOk seeds s,
    normalize_opts_min_calls opts,
    normalize_opts_cache_default opts,
    normalize_opts_cache_min opts⟩

theorem init_normalizes_options_witness :
    (normalize_opts optsZero).min_calls = DEFAULT_MIN_CALLS_TO_ADD ∧
    (normalize_opts optsZero).max_cache_size = DEFAULT_CACHE_SIZE := by
  have h := init_normalizes_options optsZero true true [] baseState
  exact ⟨h.2.1 (by decide), h.2.2.1 (by decide)⟩

/-- Claim C8: after `mjit_finish` on an enabled state, the queue, the
active list, the compact list, and the continuation list are all
empty. -/
theorem finish_empties_all_lists (s : MState) (hen : s.mjit_enabled = true) :
    (mjit_finish s).mjit_unit_queue = []
  ∧ (mjit_finish s).mjit_active_units = []
  ∧ (mjit_finish s).mjit_compact_units = []
  ∧ (mjit_finish s).first_cont = [] := by
  unfold mjit_finish
  simp only [hen, Bool.not_true, Bool.false_eq_true, if_false]
  exact ⟨free_list_eq_nil _, free_list_eq_nil _, free_list_eq_nil _,
    finish_conts_eq_nil _⟩

theorem finish_empties_all_lists_witness :
    (mjit_finish activeDemoState).mjit_unit_queue = []
  ∧ (mjit_finish activeDemoState).mjit_active_units = []
  ∧ (mjit_finish activeDemoState).mjit_compact_units = []
  ∧ (mjit_finish activeDemoState).first_cont = [] :=
  finish_empties_all_lists activeDemoState rfl

/-- Claim C10: with the subsystem disabled, every public entry point
returns immediately with the coordinator state untouched:
`gc_start_hook`, `gc_finish_hook`, `free_iseq`, `mark` (which marks
nothing), `add_iseq_to_process`, `add_class_serial`, and
`remove_class_serial`. -/
theorem disabled_entry_points_are_noops (s : MState) (threadStacks : List (List Nat))
    (i : Nat) (c : Int) (hdis : s.mjit_enabled = false) :
    mjit_gc_start_hook s = some s
  ∧ mjit_gc_finish_hook s = s
  ∧ mjit_free_iseq i s = s
  ∧ mjit_mark s = []
  ∧ mjit_add_iseq_to_process threadStacks i s = s
  ∧ mjit_add_class_serial c s = s
  ∧ mjit_remove_class_serial c s = s := by
  refine ⟨?_, ?_, ?_, ?_, ?_, ?_, ?_⟩
  · simp [mjit_gc_start_hook, hdis]
  · simp [mjit_gc_finish_hook, hdis]
  · simp [mjit_free_iseq, hdis]
  · simp [mjit_mark, hdis]
  · simp [mjit_add_iseq_to_process, hdis]
  · simp [mjit_add_class_serial, hdis]
  · simp [mjit_remove_class_serial, hdis]

theorem disabled_entry_points_are_noops_witness :
    mjit_gc_start_hook disabledState = some disabledState
  ∧ mjit_gc_finish_hook disabledState = disabledState
  ∧ mjit_free_iseq 0 disabledState = disabledState
  ∧ mjit_mark disabledState = []
  ∧ mjit_add_iseq_to_process [] 0 disabledState = disabledState
  ∧ mjit_add_class_serial 3 disabledState = disabledState
  ∧ mjit_remove_class_serial 3 disabledState = disabledState :=
  disabled_entry_points_are_noops disabledState [] 0 3 rfl
